import Mathlib

/-!
Verification of the asset decoding and replacement pipeline
(`src/loader/resource_loader.cpp`, `src/data/map.cpp`) against its
natural-language specification.

The C++ code is shallowly embedded: bytes are `List Nat`, fallible
operations return `Except LoadError`, and external collaborators whose
sources are not part of this repository snapshot (the CMP package index,
the PNG decoder, the EGA tiled-image decoder, the VOC decoder, the
Adlib synthesizer, and the numeric constants from `game_traits.hpp`)
are modelled from the specification as fields of a `ResourceEnv`
environment record or as universally quantified parameters.
-/

set_option autoImplicit false

namespace RigelSpec

/-- A raw byte buffer; each entry is a byte value (0..255 in real data). -/
abbrev ByteBuffer := List Nat

/-- RGBA color as produced by the decoders. -/
structure Color where
  r : Nat
  g : Nat
  b : Nat
  a : Nat
deriving DecidableEq

/-- Row-major RGBA image: `data::Image` (width, height, pixel sequence). -/
structure Image where
  width : Nat
  height : Nat
  pixels : List Color
deriving DecidableEq

/-- Error taxonomy of the loader (spec section 7). -/
inductive LoadError where
  | NotFoundError
  | FormatError
deriving DecidableEq

/-- A decoded tile set: composite image plus per-tile attribute words
(`TileSet` / `TileAttributeDict`). -/
structure TileSet where
  image : Image
  attributes : List Nat
deriving DecidableEq

/-- Normalized PCM audio (spec: `AudioBuffer`). -/
structure AudioBuffer where
  sampleRate : Nat
  channels : Nat
  samples : List Int
deriving DecidableEq

/-- ASCII upper-casing, the case-folding used to model the
`std::regex::icase` flag of the replacement-name regexes. -/
def toUpperAscii (c : Char) : Char :=
  if 'a' ≤ c ∧ c ≤ 'z' then Char.ofNat (c.toNat - 32) else c

/-- Membership in the regex character class `[0-9A-Z]` under `icase`
(which also admits `a`-`z`). -/
def isClassChar (c : Char) : Bool :=
  ('0' ≤ c && c ≤ '9') || ('A' ≤ c && c ≤ 'Z') || ('a' ≤ c && c ≤ 'z')

/-- Membership in the regex character class `[0-9]`. -/
def isDigitChar (c : Char) : Bool :=
  '0' ≤ c && c ≤ '9'

/-- The tileset replacement-name regex
`^CZONE([0-9A-Z])\.MNI$` with `icase`, from
`loadReplacementTilesetIfPresent`: on a match, returns the captured
group (the single alphanumeric character, case preserved). -/
def matchCZone (name : String) : Option String :=
  match name.data with
  | [c1, c2, c3, c4, c5, n, d, m1, m2, m3] =>
    if [c1, c2, c3, c4, c5].map toUpperAscii = ['C', 'Z', 'O', 'N', 'E']
        ∧ isClassChar n = true
        ∧ [d, m1, m2, m3].map toUpperAscii = ['.', 'M', 'N', 'I']
    then some (String.mk [n])
    else none
  | _ => none

/-- The backdrop replacement-name regex `^DROP([0-9]+)\.MNI$` with
`icase`, from `ResourceLoader::loadBackdrop`: on a match, returns the
captured digit string. -/
def matchDrop (name : String) : Option String :=
  match name.data with
  | c1 :: c2 :: c3 :: c4 :: rest =>
    if [c1, c2, c3, c4].map toUpperAscii = ['D', 'R', 'O', 'P']
        ∧ (rest.drop (rest.length - 4)).map toUpperAscii = ['.', 'M', 'N', 'I']
        ∧ rest.take (rest.length - 4) ≠ []
        ∧ (rest.take (rest.length - 4)).all isDigitChar = true
    then some (String.mk (rest.take (rest.length - 4)))
    else none
  | _ => none

/-- The pattern-based replacement candidate file name for a tileset:
`tileset<N>.png` when the logical name matches the tileset regex. -/
def tilesetCandidate (name : String) : Option String :=
  (matchCZone name).map (fun num => "tileset" ++ num ++ ".png")

/-- The pattern-based replacement candidate file name for a backdrop:
`backdrop<N>.png` when the logical name matches the backdrop regex. -/
def backdropCandidate (name : String) : Option String :=
  (matchDrop name).map (fun num => "backdrop" ++ num ++ ".png")

/-- The sound ids. Modelled from the spec: the enum `data::SoundId` is
not part of this repository snapshot; the seven intro ids named in
`ResourceLoader::loadSound` are explicit constructors and every other
id is `other n` with ordinal `n`. The ordinals of the intro ids are
never consulted by the resolution logic (the intro branch returns
before the ordinal is used), so they are mapped to `0` here. -/
inductive SoundId where
  | IntroGunShot
  | IntroGunShotLow
  | IntroEmptyShellsFalling
  | IntroTargetMovingCloser
  | IntroTargetStopsMoving
  | IntroDukeSpeaks1
  | IntroDukeSpeaks2
  | other (ordinal : Nat)
deriving DecidableEq

/-- `static_cast<int>(id)` of a sound id (see `SoundId` above: only the
ordinals of non-intro ids are ever used by the loader). -/
def SoundId.ordinal : SoundId → Nat
  | .other n => n
  | _ => 0

/-- Numeric tileset-format constants from `GameTraits::CZone`
(`game_traits.hpp` is not part of this snapshot, so the constants are
kept abstract as a record; the spec fixes none of their values). -/
structure CZoneTraits where
  numSolidTiles : Nat
  numTilesTotal : Nat
  attributeBytesTotal : Nat
  tileBytes : Nat
  tileSetImageWidth : Nat
  tileSetImageHeight : Nat
  solidTilesImageHeight : Nat

/-- The environment a `ResourceLoader` runs in. Functions model the
external collaborators whose sources are not in this snapshot:
`fsFiles` is the set of unpacked files under the game path (keyed by
archive-relative name), `archive` the CMP package index (modelled from
the spec: name to bytes lookup), `pngDir` the files present in the
`asset_replacements` directory (keyed by file name), `decodePng` the
PNG decoder (modelled from the spec: `none` on malformed input),
`tiledImage` the EGA tiled-image decoder (bytes, grid width in tiles,
masked flag), `vocDecode` the VOC audio decoder, and `synthAdlib` the
Adlib instrument synthesizer. -/
structure ResourceEnv where
  fsFiles : String → Option ByteBuffer
  archive : String → Option ByteBuffer
  pngDir : String → Option ByteBuffer
  decodePng : ByteBuffer → Option Image
  tiledImage : ByteBuffer → Nat → Bool → Image
  vocDecode : ByteBuffer → Except LoadError AudioBuffer
  synthAdlib : SoundId → AudioBuffer
  traits : CZoneTraits
  viewPortWidthPx : Nat
  viewPortHeightPx : Nat
  viewPortWidthTiles : Nat

/-- `ResourceLoader::file`: the unpacked file at the exact
archive-relative path takes priority; otherwise the archive entry;
otherwise `NotFoundError`. -/
def fileOf (env : ResourceEnv) (name : String) : Except LoadError ByteBuffer :=
  match env.fsFiles name with
  | some bytes => .ok bytes
  | none =>
    match env.archive name with
    | some bytes => .ok bytes
    | none => .error .NotFoundError

/-- `ResourceLoader::hasFile`: unpacked file exists or archive has an
entry. -/
def hasFileOf (env : ResourceEnv) (name : String) : Bool :=
  (env.fsFiles name).isSome || (env.archive name).isSome

/-- `loadPng` applied to a file in the `asset_replacements` directory:
`none` when the file is absent or fails to decode as an image
(modelled from the spec: the decoder itself is a collaborator). -/
def loadPngAt (env : ResourceEnv) (fname : String) : Option Image :=
  (env.pngDir fname).bind env.decodePng

/-- `loadReplacementTilesetIfPresent`: match the tileset regex, build
the `tileset<N>.png` candidate, and try to load it. -/
def loadReplacementTilesetIfPresent (env : ResourceEnv) (name : String) :
    Option Image :=
  match matchCZone name with
  | some num => loadPngAt env ("tileset" ++ num ++ ".png")
  | none => none

/-- A little-endian 16-bit read at byte offset `pos`
(`LeStreamReader::readU16`; `file_utils.hpp` is not in this snapshot,
so the reader is modelled from the spec as positional byte reads,
out-of-range reads yielding 0). -/
def readU16LE (data : ByteBuffer) (pos : Nat) : Nat :=
  data.getD pos 0 + 256 * data.getD (pos + 1) 0

/-- The attribute-reading loop of `ResourceLoader::loadCZone`: `fuel`
entries remain, `index` is the current tile index, `pos` the reader
position. Each entry reads a 16-bit word; entries with
`index >= numSolid` additionally skip `sizeof(uint16_t) * 4 = 8` bytes.
Returns the attribute list and the final reader position. -/
def czoneAttrLoop (data : ByteBuffer) (numSolid : Nat) :
    Nat → Nat → Nat → List Nat × Nat
  | 0, _, pos => ([], pos)
  | fuel + 1, index, pos =>
    let attr := readU16LE data pos
    let pos2 := pos + 2
    let pos3 := if numSolid ≤ index then pos2 + 8 else pos2
    let rest := czoneAttrLoop data numSolid fuel (index + 1) pos3
    (attr :: rest.1, rest.2)

/-- The full attribute table decoded by `loadCZone`: the reader ranges
over the first `attributeBytesTotal` bytes and the loop runs for
`numTilesTotal` entries starting at index 0, position 0. -/
def czoneAttributes (t : CZoneTraits) (data : ByteBuffer) : List Nat :=
  (czoneAttrLoop (data.take t.attributeBytesTotal) t.numSolidTiles
    t.numTilesTotal 0 0).1

/-- An all-transparent-black image of the given pixel dimensions
(`data::Image` constructed from width and height only). -/
def Image.blank (w h : Nat) : Image :=
  ⟨w, h, List.replicate (w * h) ⟨0, 0, 0, 0⟩⟩

/-- `Image::insertImage`: blit `sub` into `img` at pixel position
`(x, y)`. Modelled from the spec: in-place blit of a sub-image at
integer coordinates, row-major (`image.cpp` is not in this snapshot). -/
def Image.insertImage (img : Image) (x y : Nat) (sub : Image) : Image :=
  { img with
    pixels := (List.range (img.width * img.height)).map (fun i =>
      let px := i % img.width
      let py := i / img.width
      if x ≤ px ∧ px < x + sub.width ∧ y ≤ py ∧ py < y + sub.height then
        sub.pixels.getD ((py - y) * sub.width + (px - x)) ⟨0, 0, 0, 0⟩
      else
        img.pixels.getD i ⟨0, 0, 0, 0⟩) }

/-- `tilesToPixels`: tiles are 8x8 pixels (spec section 4.4). -/
def tilesToPixels (tiles : Nat) : Nat := 8 * tiles

/-- `ResourceLoader::loadCZone`: resolve the bytes via `fileOf`, decode
the attribute table, then return the pattern-based replacement image if
one loads, else decode the solid region (unmasked) and the masked
region (masked) as tiled images and stack them into one atlas. -/
def loadCZone (env : ResourceEnv) (name : String) : Except LoadError TileSet :=
  match fileOf env name with
  | .error e => .error e
  | .ok data =>
    let t := env.traits
    let attributes := czoneAttributes t data
    match loadReplacementTilesetIfPresent env name with
    | some replacementImage => .ok ⟨replacementImage, attributes⟩
    | none =>
      let fullImage := Image.blank (tilesToPixels t.tileSetImageWidth)
        (tilesToPixels t.tileSetImageHeight)
      let tiles := data.drop t.attributeBytesTotal
      let solidBytes := tiles.take (t.numSolidTiles * t.tileBytes)
      let maskedBytes := tiles.drop (t.numSolidTiles * t.tileBytes)
      let solidTilesImage := env.tiledImage solidBytes t.tileSetImageWidth false
      let maskedTilesImage := env.tiledImage maskedBytes t.tileSetImageWidth true
      let stacked := (fullImage.insertImage 0 0 solidTilesImage).insertImage
        0 (tilesToPixels t.solidTilesImageHeight) maskedTilesImage
      .ok ⟨stacked, attributes⟩

/-- `ResourceLoader::loadTiledFullscreenImage`: resolve bytes and decode
them as an unmasked tiled image at the viewport grid width. -/
def loadTiledFullscreenImage (env : ResourceEnv) (name : String) :
    Except LoadError Image :=
  (fileOf env name).map (fun bytes =>
    env.tiledImage bytes env.viewPortWidthTiles false)

/-- `ResourceLoader::loadBackdrop`: if the name matches the backdrop
regex and the `backdrop<N>.png` candidate loads, return it; otherwise
fall through to the tiled fullscreen path. -/
def loadBackdrop (env : ResourceEnv) (name : String) : Except LoadError Image :=
  match matchDrop name with
  | some num =>
    match loadPngAt env ("backdrop" ++ num ++ ".png") with
    | some replacementImage => .ok replacementImage
    | none => loadTiledFullscreenImage env name
  | none => loadTiledFullscreenImage env name

/-- 6-bit to 8-bit channel scaling: `round(v * 255 / 63)` computed in
integer arithmetic as `(v * 510 + 63) / 126`. Modelled from the spec:
`palette.hpp` is not part of this snapshot; the spec fixes the formula
`round(value x 255/63)` exactly. -/
def decode6bit (v : Nat) : Nat := (v * 510 + 63) / 126

/-- One palette color from a byte triplet at offset `3 * i`, alpha 255. -/
def paletteColorAt (bytes : ByteBuffer) (i : Nat) : Color :=
  ⟨decode6bit (bytes.getD (3 * i) 0),
   decode6bit (bytes.getD (3 * i + 1) 0),
   decode6bit (bytes.getD (3 * i + 2) 0), 255⟩

/-- `load6bitPalette16`: consumes exactly 48 bytes, `FormatError` if
fewer remain. Modelled from the spec (section 4.3). -/
def load6bitPalette16 (bytes : ByteBuffer) : Except LoadError (List Color) :=
  if bytes.length < 48 then .error .FormatError
  else .ok ((List.range 16).map (paletteColorAt bytes))

/-- `load6bitPalette256`: consumes exactly 768 bytes, `FormatError` if
fewer remain. Modelled from the spec (section 4.3). -/
def load6bitPalette256 (bytes : ByteBuffer) : Except LoadError (List Color) :=
  if bytes.length < 768 then .error .FormatError
  else .ok ((List.range 256).map (paletteColorAt bytes))

/-- `ResourceLoader::loadAntiPiracyImage`: the file `LCR.MNI` starts
with a 768-byte 256-color palette; every following byte is a palette
index for one pixel in linear row-major order. -/
def loadAntiPiracyImage (env : ResourceEnv) : Except LoadError Image :=
  match fileOf env "LCR.MNI" with
  | .error e => .error e
  | .ok data =>
    match load6bitPalette256 (data.take 768) with
    | .error e => .error e
    | .ok palette =>
      .ok ⟨env.viewPortWidthPx, env.viewPortHeightPx,
        (data.drop 768).map (fun b => palette.getD b ⟨0, 0, 0, 0⟩)⟩

/-- The intro-sound table of `ResourceLoader::loadSound(SoundId)`. -/
def introSoundFilenameFor : SoundId → Option String
  | .IntroGunShot => some "INTRO3.MNI"
  | .IntroGunShotLow => some "INTRO4.MNI"
  | .IntroEmptyShellsFalling => some "INTRO5.MNI"
  | .IntroTargetMovingCloser => some "INTRO6.MNI"
  | .IntroTargetStopsMoving => some "INTRO7.MNI"
  | .IntroDukeSpeaks1 => some "INTRO8.MNI"
  | .IntroDukeSpeaks2 => some "INTRO9.MNI"
  | .other _ => none

/-- The digitized-sound file name probed for a sound id:
`SB_<ordinal + 1>.MNI`. -/
def digitizedSoundFileName (id : SoundId) : String :=
  "SB_" ++ toString (id.ordinal + 1) ++ ".MNI"

/-- `ResourceLoader::loadSound(const std::string&)`: resolve the bytes
and VOC-decode them. -/
def loadSoundByName (env : ResourceEnv) (name : String) :
    Except LoadError AudioBuffer :=
  (fileOf env name).bind env.vocDecode

/-- `ResourceLoader::loadSound(SoundId)`: intro table first, then the
digitized `SB_<n>.MNI` probe, then Adlib synthesis. -/
def loadSoundById (env : ResourceEnv) (id : SoundId) :
    Except LoadError AudioBuffer :=
  match introSoundFilenameFor id with
  | some introName => loadSoundByName env introName
  | none =>
    if hasFileOf env (digitizedSoundFileName id) then
      loadSoundByName env (digitizedSoundFileName id)
    else
      .ok (env.synthAdlib id)

/-- `static_cast<size_t>` applied to a (signed) `int` value: reduction
modulo 2^64. -/
def toSizeT (x : Int) : Nat := (x % (2 ^ 64 : Int)).toNat

/-- Error raised by `data::map::Map` accessors
(`std::invalid_argument`). -/
inductive MapError where
  | InvalidArgument
deriving DecidableEq

/-- The tile grid `data::map::Map`: two layers of tile indices plus the
dimensions (stored as `size_t`). -/
structure GameMap where
  layers : List (List Nat)
  widthInTiles : Nat
  heightInTiles : Nat
deriving DecidableEq

/-- The `Map` constructor: two layers of `widthInTiles * heightInTiles`
zeroes (the product is computed in `int` before conversion), and the
dimensions converted to `size_t`. -/
def GameMap.init (widthInTiles heightInTiles : Int) : GameMap :=
  { layers :=
      [List.replicate (toSizeT (widthInTiles * heightInTiles)) 0,
       List.replicate (toSizeT (widthInTiles * heightInTiles)) 0]
    widthInTiles := toSizeT widthInTiles
    heightInTiles := toSizeT heightInTiles }

/-- `Map::tileRefAt` (const) / `Map::tileAt`: convert the signed
arguments to `size_t`, bounds-check layer, x and y in that order, and
return the stored tile index. -/
def GameMap.tileAt (m : GameMap) (layerS xS yS : Int) : Except MapError Nat :=
  if m.layers.length ≤ toSizeT layerS then .error .InvalidArgument
  else if m.widthInTiles ≤ toSizeT xS then .error .InvalidArgument
  else if m.heightInTiles ≤ toSizeT yS then .error .InvalidArgument
  else .ok ((m.layers.getD (toSizeT layerS) []).getD
    (toSizeT xS + toSizeT yS * m.widthInTiles) 0)

/-- `Map::setTileAt`: reject a tile index at or above
`GameTraits::CZone::numTilesTotal`, then write through `tileRefAt`
(which performs the layer/x/y checks before handing out the
reference). Returns the map together with the error, if any; the
write happens only after every check has passed, so on an error the
map is returned unchanged. -/
def GameMap.setTileAt (numTilesTotal : Nat) (m : GameMap)
    (layerS xS yS : Int) (index : Nat) : GameMap × Option MapError :=
  if numTilesTotal ≤ index then (m, some .InvalidArgument)
  else if m.layers.length ≤ toSizeT layerS then (m, some .InvalidArgument)
  else if m.widthInTiles ≤ toSizeT xS then (m, some .InvalidArgument)
  else if m.heightInTiles ≤ toSizeT yS then (m, some .InvalidArgument)
  else
    ({ m with
       layers := m.layers.set (toSizeT layerS)
         ((m.layers.getD (toSizeT layerS) []).set
           (toSizeT xS + toSizeT yS * m.widthInTiles) index) },
     none)

/-- An environment with the given replacement-directory file removed
(used to compare behavior with and without a pattern-based candidate). -/
def removePng (env : ResourceEnv) (fname : String) : ResourceEnv :=
  { env with pngDir := fun n => if n = fname then none else env.pngDir n }

/-- An environment with an empty replacement directory. -/
def clearPngs (env : ResourceEnv) : ResourceEnv :=
  { env with pngDir := fun _ => none }

/-- Tileset-format constants for the concrete test environments: one
solid tile, two tiles total, a 12-byte attribute table
(2 + (2 + 8) bytes), 1 byte per tile, a 1x2-tile atlas with the solid
row on top. -/
def traitsC : CZoneTraits := ⟨1, 2, 12, 1, 1, 2, 1⟩

/-- Bytes of a tiny CZone file for the concrete test environments:
12 attribute bytes followed by 2 tile bytes. -/
def bytesC : ByteBuffer := [1, 0, 2, 0, 9, 9, 9, 9, 9, 9, 9, 9, 5, 6]

/-- A 5x5 solid red image, the decode result of the test PNG files. -/
def pngImgC : Image := ⟨5, 5, List.replicate 25 ⟨255, 0, 0, 255⟩⟩

/-- Baseline concrete environment: empty file system and archive,
every PNG decodes to `pngImgC`, the tiled-image decoder returns an
empty image, VOC decoding and Adlib synthesis return distinguishable
buffers. -/
def env0 : ResourceEnv :=
  { fsFiles := fun _ => none
    archive := fun _ => none
    pngDir := fun _ => none
    decodePng := fun _ => some pngImgC
    tiledImage := fun _ _ _ => Image.blank 0 0
    vocDecode := fun _ => .ok ⟨11025, 1, []⟩
    synthAdlib := fun _ => ⟨49716, 1, []⟩
    traits := traitsC
    viewPortWidthPx := 8
    viewPortHeightPx := 8
    viewPortWidthTiles := 1 }

/-- Claim C3: `file(name)` returns the unpacked file's bytes unmodified
when one exists (priority over any archive entry of the same name),
otherwise the archive entry's bytes, and fails with `NotFoundError`
exactly when the name exists neither as an unpacked file nor in the
archive. -/
theorem file_resolution_spec (env : ResourceEnv) (name : String) :
    (∀ bytes, env.fsFiles name = some bytes → fileOf env name = .ok bytes) ∧
    (env.fsFiles name = none →
      ∀ bytes, env.archive name = some bytes → fileOf env name = .ok bytes) ∧
    (fileOf env name = .error .NotFoundError ↔
      env.fsFiles name = none ∧ env.archive name = none) := by
  unfold fileOf
  cases hfs : env.fsFiles name <;> cases har : env.archive name <;> simp

/-- Environment for the `file` witness: the name `PRIOR.MNI` exists
both as an unpacked file (bytes `[1]`) and in the archive (bytes
`[2]`). -/
def envC3 : ResourceEnv :=
  { env0 with
    fsFiles := fun n => if n = "PRIOR.MNI" then some [1] else none
    archive := fun n => if n = "PRIOR.MNI" then some [2] else none }

/-- Witness for C3: with both sources present, `file` returns the
unpacked bytes `[1]`, not the archive's `[2]`. -/
theorem file_resolution_spec_witness :
    fileOf envC3 "PRIOR.MNI" = .ok [1] :=
  (file_resolution_spec envC3 "PRIOR.MNI").1 [1] rfl

/-- Claim C2: sound resolution order. Each of the seven intro ids
resolves (unconditionally, hence even when a digitized `SB_<n>.MNI`
file exists) to the VOC decode of its fixed intro file; a non-intro id
resolves to the VOC decode of `SB_<ordinal+1>.MNI` when that file
exists, and to Adlib synthesis otherwise. -/
theorem loadSound_resolution_order (env : ResourceEnv) :
    loadSoundById env .IntroGunShot = loadSoundByName env "INTRO3.MNI" ∧
    loadSoundById env .IntroGunShotLow = loadSoundByName env "INTRO4.MNI" ∧
    loadSoundById env .IntroEmptyShellsFalling
      = loadSoundByName env "INTRO5.MNI" ∧
    loadSoundById env .IntroTargetMovingCloser
      = loadSoundByName env "INTRO6.MNI" ∧
    loadSoundById env .IntroTargetStopsMoving
      = loadSoundByName env "INTRO7.MNI" ∧
    loadSoundById env .IntroDukeSpeaks1 = loadSoundByName env "INTRO8.MNI" ∧
    loadSoundById env .IntroDukeSpeaks2 = loadSoundByName env "INTRO9.MNI" ∧
    (∀ id, introSoundFilenameFor id = none →
      (hasFileOf env (digitizedSoundFileName id) = true →
        loadSoundById env id = loadSoundByName env (digitizedSoundFileName id)) ∧
      (hasFileOf env (digitizedSoundFileName id) = false →
        loadSoundById env id = .ok (env.synthAdlib id))) := by
  refine ⟨rfl, rfl, rfl, rfl, rfl, rfl, rfl, ?_⟩
  intro id hintro
  constructor <;> intro hfile <;> simp [loadSoundById, hintro, hfile]

/-- Environment for the sound witness: `INTRO3.MNI`, `SB_1.MNI` (the
digitized file whose ordinal a hypothetical intro id of ordinal 0
would select) and `SB_6.MNI` all exist as unpacked files. -/
def envC2 : ResourceEnv :=
  { env0 with
    fsFiles := fun n =>
      if n = "INTRO3.MNI" then some [3]
      else if n = "SB_1.MNI" then some [1]
      else if n = "SB_6.MNI" then some [6]
      else none }

/-- Witness for C2: a non-intro id whose digitized file exists resolves
through the digitized branch. -/
theorem loadSound_resolution_order_witness :
    loadSoundById envC2 (.other 5)
      = loadSoundByName envC2 (digitizedSoundFileName (.other 5)) :=
  (((loadSound_resolution_order envC2).2.2.2.2.2.2.2 (.other 5) rfl).1 rfl)

/-- Claim C8: a pattern-based replacement file that exists but fails to
decode as an image behaves exactly as if it were absent, for both the
backdrop and the tileset load paths; no error is surfaced. -/
theorem malformed_replacement_silent_fallback (env : ResourceEnv)
    (fname : String) (bytes : ByteBuffer)
    (hpresent : env.pngDir fname = some bytes)
    (hmalformed : env.decodePng bytes = none) (name : String) :
    loadBackdrop env name = loadBackdrop (removePng env fname) name ∧
    loadCZone env name = loadCZone (removePng env fname) name := by
  have hpng : ∀ c, loadPngAt (removePng env fname) c = loadPngAt env c := by
    intro c
    unfold loadPngAt removePng
    by_cases hc : c = fname
    · subst hc
      simp [hpresent, hmalformed]
    · simp [hc]
  constructor
  · unfold loadBackdrop
    cases hD : matchDrop name
    · rfl
    · simp only [hpng]
      rfl
  · unfold loadCZone loadReplacementTilesetIfPresent
    cases hC : matchCZone name
    · rfl
    · simp only [hpng]
      rfl

/-- Environment for the C8 witness: `backdrop1.png` exists in the
replacement directory but its bytes do not decode as an image;
`DROP1.MNI` exists in the archive. -/
def envC8 : ResourceEnv :=
  { env0 with
    archive := fun n => if n = "DROP1.MNI" then some [4] else none
    pngDir := fun n => if n = "backdrop1.png" then some [9] else none
    decodePng := fun _ => none }

/-- Witness for C8: loading `DROP1.MNI` with the malformed
`backdrop1.png` present equals loading it with that file removed. -/
theorem malformed_replacement_silent_fallback_witness :
    loadBackdrop envC8 "DROP1.MNI"
      = loadBackdrop (removePng envC8 "backdrop1.png") "DROP1.MNI" :=
  (malformed_replacement_silent_fallback envC8 "backdrop1.png" [9]
    rfl rfl "DROP1.MNI").1

/-- Claim C4: whenever `loadCZone` succeeds, the attribute table of the
resulting `TileSet` is decoded from the bytes resolved for the
tileset's logical name, and it is identical to the attribute table
obtained when no replacement image exists (empty replacement
directory): replacing the image never changes the attributes. -/
theorem czone_attributes_never_replaced (env : ResourceEnv) (name : String) :
    (∀ ts, loadCZone env name = .ok ts →
      ∃ bytes, fileOf env name = .ok bytes ∧
        ts.attributes = czoneAttributes env.traits bytes) ∧
    (loadCZone env name).map (fun ts => ts.attributes)
      = (loadCZone (clearPngs env) name).map (fun ts => ts.attributes) := by
  have hnone : ∀ n, loadReplacementTilesetIfPresent (clearPngs env) n = none := by
    intro n
    unfold loadReplacementTilesetIfPresent loadPngAt clearPngs
    cases matchCZone n <;> simp
  constructor
  · intro ts hts
    unfold loadCZone at hts
    cases hf : fileOf env name with
    | error e => rw [hf] at hts; cases hts
    | ok data =>
      refine ⟨data, rfl, ?_⟩
      rw [hf] at hts
      cases hr : loadReplacementTilesetIfPresent env name <;>
        rw [hr] at hts <;> cases hts <;> rfl
  · unfold loadCZone
    cases hf : fileOf env name with
    | error e =>
      have hf2 : fileOf (clearPngs env) name = .error e := hf
      rw [hf2]
    | ok data =>
      have hf2 : fileOf (clearPngs env) name = .ok data := hf
      rw [hf2, hnone]
      cases hr : loadReplacementTilesetIfPresent env name <;>
        simp [clearPngs, Except.map]

/-- Environment for C4's witness and C1's counterexample: the unpacked
file `CZONE3.MNI` exists (bytes `bytesC`) and the replacement
directory holds `tileset3.png`, which decodes to the 5x5 image
`pngImgC`. -/
def envC1 : ResourceEnv :=
  { env0 with
    fsFiles := fun n => if n = "CZONE3.MNI" then some bytesC else none
    pngDir := fun n => if n = "tileset3.png" then some [7] else none }

/-- Witness for C4: with the replacement image present, the attributes
of the loaded tileset are still those decoded from the resolved
bytes. -/
theorem czone_attributes_never_replaced_witness :
    ∃ bytes, fileOf envC1 "CZONE3.MNI" = .ok bytes ∧
      (TileSet.mk pngImgC [1, 2]).attributes
        = czoneAttributes envC1.traits bytes :=
  (czone_attributes_never_replaced envC1 "CZONE3.MNI").1
    ⟨pngImgC, [1, 2]⟩ (by rfl)

/-- The atlas image `loadCZone` builds for `envC1`'s traits when no
replacement image is available: a blank 8x16 canvas with the (empty)
decoded solid and masked tile strips blitted in. -/
def imageWithoutReplacementC : Image :=
  ((Image.blank 8 16).insertImage 0 0 (Image.blank 0 0)).insertImage 0 8
    (Image.blank 0 0)

/-- Counterexample to claim C1: with both the exact-path override
`CZONE3.MNI` (an unpacked file) and the pattern-based `tileset3.png`
present, `loadCZone` returns the `tileset3.png` image — not an image
decoded from the override's bytes: removing the PNG yields a different
image, so the pattern-based replacement, not the generic override,
supplies the pixels. -/
theorem czone_generic_override_loses_counterexample :
    loadCZone envC1 "CZONE3.MNI" = .ok ⟨pngImgC, [1, 2]⟩ ∧
    loadCZone (clearPngs envC1) "CZONE3.MNI"
      = .ok ⟨imageWithoutReplacementC, [1, 2]⟩ ∧
    pngImgC ≠ imageWithoutReplacementC := by
  refine ⟨by rfl, by rfl, by decide⟩

/-- Claim C1 as amended: when the logical name matches the tileset
pattern and the pattern-based replacement image loads, `loadCZone`
returns that image as the tileset image (the pattern-based override
takes priority for the pixels), while the attribute table is decoded
from the bytes resolved by `file` — for which the exact-path override
does take priority over the archive. -/
theorem czone_replacement_priority_amended (env : ResourceEnv)
    (name num : String) (img : Image) (bytes : ByteBuffer)
    (hmatch : matchCZone name = some num)
    (hpng : loadPngAt env ("tileset" ++ num ++ ".png") = some img)
    (hfile : fileOf env name = .ok bytes) :
    loadCZone env name = .ok ⟨img, czoneAttributes env.traits bytes⟩ := by
  unfold loadCZone loadReplacementTilesetIfPresent
  rw [hfile]
  simp only [Except.bind, hmatch, hpng]

/-- Witness for the amended C1: in the concrete environment with both
overrides present, `loadCZone` returns the PNG image with the
attributes decoded from the unpacked file's bytes. -/
theorem czone_replacement_priority_amended_witness :
    loadCZone envC1 "CZONE3.MNI"
      = .ok ⟨pngImgC, czoneAttributes envC1.traits bytesC⟩ :=
  czone_replacement_priority_amended envC1 "CZONE3.MNI" "3" pngImgC bytesC
    rfl rfl rfl

/-- Bytes consumed by `j` consecutive attribute entries starting at
tile index `idx`: 2 bytes for a solid-tile entry (`idx < numSolid`),
2 + 8 bytes for a masked-tile entry. -/
def attrAdvance (numSolid idx : Nat) : Nat → Nat
  | 0 => 0
  | j + 1 => (if numSolid ≤ idx then 10 else 2) + attrAdvance numSolid (idx + 1) j

/-- The reader offset at which attribute entry `j` is read (loop
started at index 0): `2 * j` for the solid entries, then 10 bytes per
masked entry. -/
def attrOffset (numSolid j : Nat) : Nat :=
  if j ≤ numSolid then 2 * j else 2 * numSolid + 10 * (j - numSolid)

theorem czoneAttrLoop_length (data : ByteBuffer) (numSolid : Nat) :
    ∀ fuel idx pos,
      ((czoneAttrLoop data numSolid fuel idx pos).1).length = fuel := by
  intro fuel
  induction fuel with
  | zero => intro idx pos; rfl
  | succ n ih =>
    intro idx pos
    simp only [czoneAttrLoop, List.length_cons]
    rw [ih]

theorem czoneAttrLoop_get (data : ByteBuffer) (numSolid : Nat) :
    ∀ fuel idx pos j, j < fuel →
      ((czoneAttrLoop data numSolid fuel idx pos).1).getD j 0
        = readU16LE data (pos + attrAdvance numSolid idx j) := by
  intro fuel
  induction fuel with
  | zero => intro idx pos j hj; omega
  | succ n ih =>
    intro idx pos j hj
    cases j with
    | zero => simp [czoneAttrLoop, attrAdvance]
    | succ j =>
      have hj2 : j < n := by omega
      simp only [czoneAttrLoop, List.getD_cons_succ]
      rw [ih _ _ j hj2, attrAdvance]
      congr 1
      split <;> omega

theorem czoneAttrLoop_finalPos (data : ByteBuffer) (numSolid : Nat) :
    ∀ fuel idx pos,
      (czoneAttrLoop data numSolid fuel idx pos).2
        = pos + attrAdvance numSolid idx fuel := by
  intro fuel
  induction fuel with
  | zero => intro idx pos; simp [czoneAttrLoop, attrAdvance]
  | succ n ih =>
    intro idx pos
    simp only [czoneAttrLoop]
    rw [ih, attrAdvance]
    split <;> omega

theorem attrAdvance_of_le (numSolid : Nat) :
    ∀ j idx, idx + j ≤ numSolid → attrAdvance numSolid idx j = 2 * j := by
  intro j
  induction j with
  | zero => intro idx h; rfl
  | succ n ih =>
    intro idx h
    rw [attrAdvance, ih (idx + 1) (by omega), if_neg (by omega)]
    omega

theorem attrAdvance_of_ge (numSolid : Nat) :
    ∀ j idx, numSolid ≤ idx → attrAdvance numSolid idx j = 10 * j := by
  intro j
  induction j with
  | zero => intro idx h; rfl
  | succ n ih =>
    intro idx h
    rw [attrAdvance, ih (idx + 1) (by omega), if_pos h]
    omega

theorem attrAdvance_split (numSolid : Nat) :
    ∀ j1 idx j2, attrAdvance numSolid idx (j1 + j2)
      = attrAdvance numSolid idx j1 + attrAdvance numSolid (idx + j1) j2 := by
  intro j1
  induction j1 with
  | zero => intro idx j2; simp [attrAdvance]
  | succ n ih =>
    intro idx j2
    have h1 : n + 1 + j2 = (n + j2) + 1 := by omega
    rw [h1, attrAdvance, attrAdvance, ih (idx + 1) j2]
    have h2 : idx + 1 + n = idx + (n + 1) := by omega
    rw [h2]
    omega

theorem attrAdvance_zero_eq_offset (numSolid : Nat) (j : Nat) :
    attrAdvance numSolid 0 j = attrOffset numSolid j := by
  unfold attrOffset
  split
  · exact attrAdvance_of_le numSolid j 0 (by omega)
  · have hs : numSolid < j := by omega
    have h1 : j = numSolid + (j - numSolid) := by omega
    rw [h1, attrAdvance_split numSolid numSolid 0 (j - numSolid),
      attrAdvance_of_le numSolid numSolid 0 (by omega),
      attrAdvance_of_ge numSolid (j - numSolid) (0 + numSolid) (by omega)]
    omega

/-- Claim C5: the decoded attribute table has exactly `numTilesTotal`
entries; entry `j` is the 16-bit word read at offset
`attrOffset numSolidTiles j` (so each of the first `numSolidTiles`
entries consumes 2 bytes, and each later entry consumes 2 bytes of
attribute plus 8 further bytes that are skipped and not retained); the
final reader position equals `attrOffset numSolidTiles numTilesTotal`,
the total consumption. -/
theorem czone_attribute_table_spec (t : CZoneTraits) (data : ByteBuffer) :
    (czoneAttributes t data).length = t.numTilesTotal ∧
    (∀ j, j < t.numTilesTotal →
      (czoneAttributes t data).getD j 0
        = readU16LE (data.take t.attributeBytesTotal)
            (attrOffset t.numSolidTiles j)) ∧
    (czoneAttrLoop (data.take t.attributeBytesTotal) t.numSolidTiles
        t.numTilesTotal 0 0).2
      = attrOffset t.numSolidTiles t.numTilesTotal := by
  refine ⟨czoneAttrLoop_length _ _ _ _ _, ?_, ?_⟩
  · intro j hj
    unfold czoneAttributes
    rw [czoneAttrLoop_get _ _ _ _ _ j hj, Nat.zero_add,
      attrAdvance_zero_eq_offset]
  · rw [czoneAttrLoop_finalPos, Nat.zero_add, attrAdvance_zero_eq_offset]

/-- Witness for C5 at the concrete traits and bytes: the table has 2
entries, entry 1 (a masked tile, `numSolidTiles = 1`) is read at
offset 2, and the loop consumes 12 bytes in total
(2 + (2 + 8)). -/
theorem czone_attribute_table_spec_witness :
    (czoneAttributes traitsC bytesC).getD 1 0
      = readU16LE (bytesC.take 12) (attrOffset 1 1) :=
  (czone_attribute_table_spec traitsC bytesC).2.1 1 (by decide)

theorem getD_take_of_lt (l : ByteBuffer) (n i : Nat) (h : i < n) (d : Nat) :
    (l.take n).getD i d = l.getD i d := by
  simp [List.getD_eq_getElem?_getD, List.getElem?_take, h]

theorem paletteColorAt_take (bytes : ByteBuffer) (n i : Nat)
    (h : 3 * i + 2 < n) :
    paletteColorAt (bytes.take n) i = paletteColorAt bytes i := by
  unfold paletteColorAt
  rw [getD_take_of_lt _ _ _ (by omega), getD_take_of_lt _ _ _ (by omega),
    getD_take_of_lt _ _ _ (by omega)]

/-- Claim C6: the 6-bit channel scaling equals `round(v * 255 / 63)`
computed exactly in rational arithmetic; it is monotonic; `load16`
depends on (consumes) exactly the first 48 bytes and fails with
`FormatError` exactly when fewer than 48 bytes remain; `load256`
likewise with 768 bytes. -/
theorem palette_decoding_spec :
    (∀ v, v ≤ 63 → (decode6bit v : ℤ) = round ((v : ℚ) * 255 / 63)) ∧
    (∀ v1 v2, v1 ≤ v2 → decode6bit v1 ≤ decode6bit v2) ∧
    (∀ bytes : ByteBuffer, 48 ≤ bytes.length →
      load6bitPalette16 bytes = load6bitPalette16 (bytes.take 48)) ∧
    (∀ bytes : ByteBuffer,
      load6bitPalette16 bytes = .error .FormatError ↔ bytes.length < 48) ∧
    (∀ bytes : ByteBuffer, 768 ≤ bytes.length →
      load6bitPalette256 bytes = load6bitPalette256 (bytes.take 768)) ∧
    (∀ bytes : ByteBuffer,
      load6bitPalette256 bytes = .error .FormatError ↔ bytes.length < 768) := by
  refine ⟨?_, ?_, ?_, ?_, ?_, ?_⟩
  · intro v _
    rw [round_eq]
    have h : ((v : ℚ) * 255 / 63 + 1 / 2) = ((v * 510 + 63 : ℕ) : ℚ) / 126 := by
      push_cast
      ring
    rw [h]
    symm
    rw [Int.floor_eq_iff]
    have hd := Nat.div_add_mod (v * 510 + 63) 126
    have hm : (v * 510 + 63) % 126 < 126 := Nat.mod_lt _ (by norm_num)
    constructor
    · rw [le_div_iff₀ (by norm_num : (0 : ℚ) < 126)]
      have : (decode6bit v) * 126 ≤ v * 510 + 63 := by
        unfold decode6bit
        omega
      exact_mod_cast this
    · rw [div_lt_iff₀ (by norm_num : (0 : ℚ) < 126)]
      have : v * 510 + 63 < (decode6bit v + 1) * 126 := by
        unfold decode6bit
        omega
      calc ((v * 510 + 63 : ℕ) : ℚ) < ((decode6bit v + 1) * 126 : ℕ) := by
            exact_mod_cast this
        _ = ((decode6bit v : ℤ) + 1) * 126 := by push_cast; ring
  · intro v1 v2 h
    exact Nat.div_le_div_right (by omega)
  · intro bytes h
    unfold load6bitPalette16
    rw [if_neg (by omega), if_neg (by rw [List.length_take]; omega)]
    refine congrArg _ (List.map_congr_left ?_)
    intro i hi
    rw [List.mem_range] at hi
    rw [paletteColorAt_take bytes 48 i (by omega)]
  · intro bytes
    unfold load6bitPalette16
    split <;> simp_all
  · intro bytes h
    unfold load6bitPalette256
    rw [if_neg (by omega), if_neg (by rw [List.length_take]; omega)]
    refine congrArg _ (List.map_congr_left ?_)
    intro i hi
    rw [List.mem_range] at hi
    rw [paletteColorAt_take bytes 768 i (by omega)]
  · intro bytes
    unfold load6bitPalette256
    split <;> simp_all

/-- Witness for C6: the scaling at `v = 32` matches the rational
rounding exactly. -/
theorem palette_decoding_spec_witness :
    (decode6bit 32 : ℤ) = round ((32 : ℚ) * 255 / 63) :=
  palette_decoding_spec.1 32 (by decide)

/-- Claim C7: the anti-piracy screen is decoded from its own layout:
the first 768 bytes of `LCR.MNI` form a 256-color palette and every
subsequent byte is a palette index for one pixel in linear row-major
order, so output pixel `i` equals `palette[data[768 + i]]`; the image
carries the fixed viewport dimensions; and the result never touches
the tiled-image decoder (replacing it leaves the result unchanged). -/
theorem anti_piracy_image_layout (env : ResourceEnv) (data : ByteBuffer)
    (hfile : fileOf env "LCR.MNI" = .ok data) (hlen : 768 ≤ data.length) :
    ∃ palette, load6bitPalette256 (data.take 768) = .ok palette ∧
      loadAntiPiracyImage env
        = .ok ⟨env.viewPortWidthPx, env.viewPortHeightPx,
            (data.drop 768).map (fun b => palette.getD b ⟨0, 0, 0, 0⟩)⟩ ∧
      ((data.drop 768).map (fun b => palette.getD b ⟨0, 0, 0, 0⟩)).length
        = data.length - 768 ∧
      (∀ i, i < data.length - 768 →
        ((data.drop 768).map (fun b => palette.getD b ⟨0, 0, 0, 0⟩)).getD i
            ⟨0, 0, 0, 0⟩
          = palette.getD (data.getD (768 + i) 0) ⟨0, 0, 0, 0⟩) ∧
      (∀ f, loadAntiPiracyImage { env with tiledImage := f }
        = loadAntiPiracyImage env) := by
  have htake : (data.take 768).length = 768 := by
    rw [List.length_take]
    omega
  have hp : load6bitPalette256 (data.take 768)
      = .ok ((List.range 256).map (paletteColorAt (data.take 768))) := by
    unfold load6bitPalette256
    rw [if_neg (by rw [htake]; omega)]
  refine ⟨(List.range 256).map (paletteColorAt (data.take 768)), hp, ?_, ?_, ?_, ?_⟩
  · unfold loadAntiPiracyImage
    rw [hfile]
    show (match load6bitPalette256 (data.take 768) with
      | .error e => (.error e : Except LoadError Image)
      | .ok palette =>
        .ok ⟨env.viewPortWidthPx, env.viewPortHeightPx,
          (data.drop 768).map (fun b => palette.getD b ⟨0, 0, 0, 0⟩)⟩) = _
    rw [hp]
  · rw [List.length_map, List.length_drop]
  · intro i hi
    set pal := (List.range 256).map (paletteColorAt (data.take 768)) with hpal
    have h1 : i < (data.drop 768).length := by
      rw [List.length_drop]
      omega
    rw [List.getD_eq_getElem?_getD, List.getElem?_map, List.getElem?_drop]
    have h2 : data[768 + i]? = some (data.getD (768 + i) 0) := by
      cases h3 : data[768 + i]? with
      | none =>
        rw [List.getElem?_eq_none_iff] at h3
        omega
      | some b =>
        rw [List.getD_eq_getElem?_getD, h3]
        rfl
    rw [h2]
    simp [List.getD_eq_getElem?_getD]
  · intro f
    unfold loadAntiPiracyImage
    rw [hfile]
    have hfile2 : fileOf { env with tiledImage := f } "LCR.MNI" = .ok data :=
      hfile
    rw [hfile2]

/-- Environment for the C7 witness: `LCR.MNI` is an unpacked file of
770 bytes (768 palette bytes, then two pixel indices). -/
def envC7 : ResourceEnv :=
  { env0 with
    fsFiles := fun n =>
      if n = "LCR.MNI" then some (List.replicate 768 0 ++ [0, 1]) else none }

/-- Witness for C7 at the concrete 770-byte file. -/
theorem anti_piracy_image_layout_witness :
    ∃ palette,
      load6bitPalette256 ((List.replicate 768 0 ++ [0, 1] : ByteBuffer).take 768)
        = .ok palette ∧
      loadAntiPiracyImage envC7
        = .ok ⟨envC7.viewPortWidthPx, envC7.viewPortHeightPx,
            ((List.replicate 768 0 ++ [0, 1] : ByteBuffer).drop 768).map
              (fun b => palette.getD b ⟨0, 0, 0, 0⟩)⟩ ∧
      (((List.replicate 768 0 ++ [0, 1] : ByteBuffer).drop 768).map
          (fun b => palette.getD b ⟨0, 0, 0, 0⟩)).length
        = (List.replicate 768 0 ++ [0, 1] : ByteBuffer).length - 768 ∧
      (∀ i, i < (List.replicate 768 0 ++ [0, 1] : ByteBuffer).length - 768 →
        (((List.replicate 768 0 ++ [0, 1] : ByteBuffer).drop 768).map
            (fun b => palette.getD b ⟨0, 0, 0, 0⟩)).getD i ⟨0, 0, 0, 0⟩
          = palette.getD
              ((List.replicate 768 0 ++ [0, 1] : ByteBuffer).getD (768 + i) 0)
              ⟨0, 0, 0, 0⟩) ∧
      (∀ f, loadAntiPiracyImage { envC7 with tiledImage := f }
        = loadAntiPiracyImage envC7) :=
  anti_piracy_image_layout envC7 (List.replicate 768 0 ++ [0, 1]) rfl
    (by rw [List.length_append, List.length_replicate]; omega)

/-- For arguments in the range of a 32-bit `int` and a bound below
2^31, the `size_t` cast makes the bound check `b <= cast(x)` equivalent
to `x < 0 or b <= x`: a negative value wraps to at least
2^64 - 2^31, far above any such bound. -/
theorem toSizeT_bound_iff (x : Int) (b : Nat)
    (hx1 : -(2 ^ 31) ≤ x) (hx2 : x < 2 ^ 31) (hb : b < 2 ^ 31) :
    (b ≤ toSizeT x) ↔ (x < 0 ∨ (b : Int) ≤ x) := by
  unfold toSizeT
  omega

theorem toSizeT_nonneg (x : Int) (hx1 : 0 ≤ x) (hx2 : x < 2 ^ 31) :
    (toSizeT x : Int) = x := by
  unfold toSizeT
  omega

/-- Claim C10: for a map with two layers and dimensions in `int` range,
and arguments in `int` range: `setTileAt` reports an error exactly when
the index reaches the tileset's total tile count, or the layer is
negative or at least 2, or x or y is negative or at least the
respective dimension (negatives are rejected through the
signed-to-unsigned cast); on an error the map is returned unchanged
(no tile of either layer is modified); `tileAt` errors under exactly
the layer/x/y conditions and otherwise returns the stored tile
index. -/
theorem map_bounds_checking (m : GameMap) (numTilesTotal : Nat)
    (layer x y : Int) (index : Nat)
    (hl : m.layers.length = 2)
    (hw : m.widthInTiles < 2 ^ 31) (hh : m.heightInTiles < 2 ^ 31)
    (hl1 : -(2 ^ 31) ≤ layer) (hl2 : layer < 2 ^ 31)
    (hx1 : -(2 ^ 31) ≤ x) (hx2 : x < 2 ^ 31)
    (hy1 : -(2 ^ 31) ≤ y) (hy2 : y < 2 ^ 31) :
    ((m.setTileAt numTilesTotal layer x y index).2.isSome ↔
      (numTilesTotal ≤ index ∨ layer < 0 ∨ 2 ≤ layer ∨
       x < 0 ∨ (m.widthInTiles : Int) ≤ x ∨
       y < 0 ∨ (m.heightInTiles : Int) ≤ y)) ∧
    ((m.setTileAt numTilesTotal layer x y index).2.isSome →
      (m.setTileAt numTilesTotal layer x y index).1 = m) ∧
    ((m.tileAt layer x y).isOk = false ↔
      (layer < 0 ∨ 2 ≤ layer ∨
       x < 0 ∨ (m.widthInTiles : Int) ≤ x ∨
       y < 0 ∨ (m.heightInTiles : Int) ≤ y)) ∧
    (¬(layer < 0 ∨ 2 ≤ layer ∨
       x < 0 ∨ (m.widthInTiles : Int) ≤ x ∨
       y < 0 ∨ (m.heightInTiles : Int) ≤ y) →
      m.tileAt layer x y
        = .ok ((m.layers.getD (toSizeT layer) []).getD
            (toSizeT x + toSizeT y * m.widthInTiles) 0)) := by
  have hliff : (m.layers.length ≤ toSizeT layer) ↔ (layer < 0 ∨ 2 ≤ layer) := by
    rw [hl]
    exact toSizeT_bound_iff layer 2 hl1 hl2 (by norm_num)
  have hxiff : (m.widthInTiles ≤ toSizeT x) ↔
      (x < 0 ∨ (m.widthInTiles : Int) ≤ x) :=
    toSizeT_bound_iff x m.widthInTiles hx1 hx2 hw
  have hyiff : (m.heightInTiles ≤ toSizeT y) ↔
      (y < 0 ∨ (m.heightInTiles : Int) ≤ y) :=
    toSizeT_bound_iff y m.heightInTiles hy1 hy2 hh
  have hset : (m.setTileAt numTilesTotal layer x y index).2.isSome ↔
      (numTilesTotal ≤ index ∨ m.layers.length ≤ toSizeT layer ∨
       m.widthInTiles ≤ toSizeT x ∨ m.heightInTiles ≤ toSizeT y) := by
    unfold GameMap.setTileAt
    split_ifs <;> simp_all
  have htile : (m.tileAt layer x y).isOk = false ↔
      (m.layers.length ≤ toSizeT layer ∨
       m.widthInTiles ≤ toSizeT x ∨ m.heightInTiles ≤ toSizeT y) := by
    unfold GameMap.tileAt
    split_ifs <;> simp_all [Except.isOk, Except.toBool]
  refine ⟨?_, ?_, ?_, ?_⟩
  · rw [hset, hliff, hxiff, hyiff]
    simp only [or_assoc]
  · unfold GameMap.setTileAt
    split_ifs <;> intro hs
    · rfl
    · rfl
    · rfl
    · rfl
    · simp at hs
  · rw [htile, hliff, hxiff, hyiff]
    simp only [or_assoc]
  · intro h
    push_neg at h
    unfold GameMap.tileAt
    rw [if_neg, if_neg, if_neg]
    · rw [hyiff]
      push_neg
      exact ⟨h.2.2.2.2.1, h.2.2.2.2.2⟩
    · rw [hxiff]
      push_neg
      exact ⟨h.2.2.1, h.2.2.2.1⟩
    · rw [hliff]
      push_neg
      exact ⟨h.1, h.2.1⟩

/-- Witness for C10: on a freshly constructed 3x2 map with 5 total
tiles, writing with a negative layer index fails. -/
theorem map_bounds_checking_witness :
    ((GameMap.init 3 2).setTileAt 5 (-1) 0 0 1).2.isSome :=
  (map_bounds_checking (GameMap.init 3 2) 5 (-1) 0 0 1
    (by rfl)
    (by norm_num [GameMap.init, toSizeT])
    (by norm_num [GameMap.init, toSizeT])
    (by norm_num) (by norm_num) (by norm_num) (by norm_num)
    (by norm_num) (by norm_num)).1.mpr
    (Or.inr (Or.inl (by norm_num)))

theorem list_eq_four {α : Type} (l : List α) (h : l.length = 4) :
    ∃ a b c d, l = [a, b, c, d] := by
  rcases l with _ | ⟨a, _ | ⟨b, _ | ⟨c, _ | ⟨d, _ | ⟨e, t⟩⟩⟩⟩⟩ <;> simp at h
  exact ⟨a, b, c, d, rfl⟩

theorem list_eq_five {α : Type} (l : List α) (h : l.length = 5) :
    ∃ a b c d e, l = [a, b, c, d, e] := by
  rcases l with _ | ⟨a, _ | ⟨b, _ | ⟨c, _ | ⟨d, _ | ⟨e, _ | ⟨f, t⟩⟩⟩⟩⟩⟩ <;> simp at h
  exact ⟨a, b, c, d, e, rfl⟩

def czoneSpecMatch (name cand : String) : Prop :=
  ∃ (pre : List Char) (c : Char) (tl : List Char),
    name.data = pre ++ c :: tl ∧
    pre.map toUpperAscii = ['C', 'Z', 'O', 'N', 'E'] ∧
    isClassChar c = true ∧
    tl.map toUpperAscii = ['.', 'M', 'N', 'I'] ∧
    cand = "tileset" ++ String.mk [c] ++ ".png"

theorem tileset_fwd (name cand : String) (h : tilesetCandidate name = some cand) :
    czoneSpecMatch name cand := by
  rw [tilesetCandidate, Option.map_eq_some'] at h
  obtain ⟨num, hm, hf⟩ := h
  unfold matchCZone at hm
  split at hm
  case h_1 c1 c2 c3 c4 c5 n d m1 m2 m3 heq =>
    split_ifs at hm with hcond
    injection hm with hnum
    exact ⟨[c1, c2, c3, c4, c5], n, [d, m1, m2, m3], by rw [heq]; rfl,
      hcond.1, hcond.2.1, hcond.2.2, by rw [← hf, hnum]⟩
  case h_2 => cases hm

theorem tileset_bwd (name cand : String) (h : czoneSpecMatch name cand) :
    tilesetCandidate name = some cand := by
  obtain ⟨pre, c, tl, hnd, hpre, hc, htl, hcand⟩ := h
  have hp5 : pre.length = 5 := by
    have h2 := congrArg List.length hpre
    simpa using h2
  have ht4 : tl.length = 4 := by
    have h2 := congrArg List.length htl
    simpa using h2
  obtain ⟨p1, p2, p3, p4, p5, rfl⟩ := list_eq_five pre hp5
  obtain ⟨t1, t2, t3, t4, rfl⟩ := list_eq_four tl ht4
  have hnd2 : name.data = [p1, p2, p3, p4, p5, c, t1, t2, t3, t4] := by
    rw [hnd]; rfl
  rw [tilesetCandidate, matchCZone, hnd2]
  simp only []
  rw [if_pos ⟨hpre, hc, htl⟩, Option.map_some']
  rw [hcand]

def dropSpecMatch (name cand : String) : Prop :=
  ∃ (pre ds tl : List Char),
    name.data = pre ++ ds ++ tl ∧
    pre.map toUpperAscii = ['D', 'R', 'O', 'P'] ∧
    ds ≠ [] ∧ ds.all isDigitChar = true ∧
    tl.map toUpperAscii = ['.', 'M', 'N', 'I'] ∧
    cand = "backdrop" ++ String.mk ds ++ ".png"

theorem drop_fwd (name cand : String) (h : backdropCandidate name = some cand) :
    dropSpecMatch name cand := by
  rw [backdropCandidate, Option.map_eq_some'] at h
  obtain ⟨num, hm, hf⟩ := h
  unfold matchDrop at hm
  split at hm
  case h_1 c1 c2 c3 c4 rest heq =>
    split_ifs at hm with hcond
    injection hm with hnum
    obtain ⟨hpre, htl, hne, hdig⟩ := hcond
    refine ⟨[c1, c2, c3, c4], rest.take (rest.length - 4),
      rest.drop (rest.length - 4), ?_, hpre, hne, hdig, htl, ?_⟩
    · rw [heq, List.append_assoc, List.take_append_drop]
      rfl
    · rw [← hf, hnum]
  case h_2 => cases hm

theorem drop_bwd (name cand : String) (h : dropSpecMatch name cand) :
    backdropCandidate name = some cand := by
  obtain ⟨pre, ds, tl, hnd, hpre, hne, hdig, htl, hcand⟩ := h
  have hp4 : pre.length = 4 := by
    have h2 := congrArg List.length hpre
    simpa using h2
  have ht4 : tl.length = 4 := by
    have h2 := congrArg List.length htl
    simpa using h2
  obtain ⟨p1, p2, p3, p4, rfl⟩ := list_eq_four pre hp4
  obtain ⟨t1, t2, t3, t4, rfl⟩ := list_eq_four tl ht4
  have hnd2 : name.data = p1 :: p2 :: p3 :: p4 :: (ds ++ [t1, t2, t3, t4]) := by
    rw [hnd]
    simp
  rw [backdropCandidate, matchDrop, hnd2]
  simp only []
  have h1 : (ds ++ [t1, t2, t3, t4]).length - 4 = ds.length := by simp
  rw [h1, List.take_left, List.drop_left]
  rw [if_pos ⟨hpre, htl, hne, hdig⟩, Option.map_some']
  rw [hcand]

/-- Claim C9: the replacement-candidate derivation follows the fixed
naming convention exactly. A logical name yields the tileset candidate
`tileset<N>.png` precisely when it decomposes (case-insensitively) as
`CZONE`, one alphanumeric character `N`, and `.MNI`; it yields the
backdrop candidate `backdrop<N>.png` precisely when it decomposes as
`DROP`, a nonempty digit string `N`, and `.MNI`; all other names
produce no pattern-based candidate. -/
theorem replacement_name_convention (name : String) :
    (∀ cand, tilesetCandidate name = some cand ↔ czoneSpecMatch name cand) ∧
    (tilesetCandidate name = none ↔ ¬ ∃ cand, czoneSpecMatch name cand) ∧
    (∀ cand, backdropCandidate name = some cand ↔ dropSpecMatch name cand) ∧
    (backdropCandidate name = none ↔ ¬ ∃ cand, dropSpecMatch name cand) := by
  have h1 : ∀ cand, tilesetCandidate name = some cand ↔ czoneSpecMatch name cand :=
    fun cand => ⟨tileset_fwd name cand, tileset_bwd name cand⟩
  have h2 : ∀ cand, backdropCandidate name = some cand ↔ dropSpecMatch name cand :=
    fun cand => ⟨drop_fwd name cand, drop_bwd name cand⟩
  refine ⟨h1, ⟨?_, ?_⟩, h2, ⟨?_, ?_⟩⟩
  · intro hn hex
    obtain ⟨cand, hc⟩ := hex
    rw [(h1 cand).mpr hc] at hn
    cases hn
  · intro hnex
    cases hx : tilesetCandidate name with
    | none => rfl
    | some c => exact absurd ⟨c, (h1 c).mp hx⟩ hnex
  · intro hn hex
    obtain ⟨cand, hc⟩ := hex
    rw [(h2 cand).mpr hc] at hn
    cases hn
  · intro hnex
    cases hx : backdropCandidate name with
    | none => rfl
    | some c => exact absurd ⟨c, (h2 c).mp hx⟩ hnex

/-- Witness for C9: `CZONE3.MNI` decomposes per the convention with
candidate `tileset3.png`. -/
theorem replacement_name_convention_witness :
    czoneSpecMatch "CZONE3.MNI" "tileset3.png" :=
  ((replacement_name_convention "CZONE3.MNI").1 "tileset3.png").mp rfl

end RigelSpec








